import Mathlib

set_option autoImplicit false
set_option maxHeartbeats 1000000

namespace YtWebSummarizer

/-
Shallow embedding of the request-processing pipeline of the
yt-web-summarizer repository: URL classification (src/utils.py,
URLValidator), credential validation (APIKeyValidator), the TTL cache
(SimpleCache), the rate limiter (RateLimiter), the two content-acquisition
services and the summarization service (src/services.py), and the
orchestrator slice of src/app.py `main` that ties cache, acquisition and
summarization together.  Machine floats (`time.time()`) are modelled as
rationals; third-party collaborators (the `validators` library, yt-dlp,
whisper, WebBaseLoader, the LLM chain) are abstract function parameters.
-/

/-- Python `str.strip()`: remove leading and trailing whitespace.
Implemented over the character list so the kernel can evaluate it. -/
def pyStrip (s : String) : String :=
  ⟨((s.data.dropWhile Char.isWhitespace).reverse.dropWhile Char.isWhitespace).reverse⟩

/-- Python `str.lower()` over the character list. -/
def pyLower (s : String) : String :=
  ⟨s.data.map Char.toLower⟩

/-- Model of `re.match(URLValidator.YOUTUBE_REGEX, s)` for the pattern
`(https?://)?(www\.)?(youtube\.com|youtu\.be)/` (src/utils.py line 26):
an optional literal scheme, an optional literal `www.`, then
`youtube.com/` or `youtu.be/`, anchored at the start of the string.
The regex is case-sensitive, exactly as `re.match` is by default. -/
def youtubeRegexMatch (s : String) : Bool :=
  let l := s.data
  let l1 := if "https://".data.isPrefixOf l then l.drop 8
            else if "http://".data.isPrefixOf l then l.drop 7
            else l
  let l2 := if "www.".data.isPrefixOf l1 then l1.drop 4 else l1
  "youtube.com/".data.isPrefixOf l2 || "youtu.be/".data.isPrefixOf l2

/-- `URLValidator.is_valid_url` (src/utils.py lines 29-42): false for the
empty string, otherwise defers to the third-party `validators.url`
predicate, which we abstract as the parameter `validatorsUrl`. -/
def is_valid_url (validatorsUrl : String → Bool) (url : String) : Bool :=
  if url = "" then false else validatorsUrl url

/-- `URLValidator.is_youtube_url` (src/utils.py lines 44-57): syntactic
validity of the raw string, then the YouTube regex against the
whitespace-stripped string. -/
def is_youtube_url (validatorsUrl : String → Bool) (url : String) : Bool :=
  is_valid_url validatorsUrl url && youtubeRegexMatch (pyStrip url)

/-- `URLValidator.is_website_url` (src/utils.py lines 59-72). -/
def is_website_url (validatorsUrl : String → Bool) (url : String) : Bool :=
  is_valid_url validatorsUrl url && !(is_youtube_url validatorsUrl url)

/-- `URLValidator.get_url_type` (src/utils.py lines 74-89). -/
def get_url_type (validatorsUrl : String → Bool) (url : String) : Option String :=
  if is_youtube_url validatorsUrl url then some "youtube"
  else if is_website_url validatorsUrl url then some "website"
  else none

/-- The host-pattern check as the claim words it, "tolerating case
and scheme variation": the same pattern applied to the lowercased
string.  This follows the claim text, for comparison with the
case-sensitive matcher the source actually uses. -/
def youtubeHostPatternCaseTolerant (s : String) : Bool :=
  youtubeRegexMatch (pyLower s)

/-- A URL whose host is YouTube up to letter case. -/
def uppercaseYoutubeUrl : String := "https://YOUTUBE.com/watch?v=abc"

/-- A stand-in for the third-party `validators.url` on the inputs the
counterexample touches: the real library accepts
`https://YOUTUBE.com/watch?v=abc` (hostnames are matched
case-insensitively), which is all the counterexample needs. -/
def acceptingValidator : String → Bool := fun s => s = uppercaseYoutubeUrl

/-- C1 counterexample: a syntactically valid URL whose host matches the
YouTube pattern once case is tolerated, yet `get_url_type` classifies it
as `website`, because the source regex match is case-sensitive.  So the
claim as stated (youtube iff valid and case-tolerant pattern match) is
false at this input. -/
theorem get_url_type_not_case_tolerant :
    is_valid_url acceptingValidator uppercaseYoutubeUrl = true ∧
    youtubeHostPatternCaseTolerant (pyStrip uppercaseYoutubeUrl) = true ∧
    get_url_type acceptingValidator uppercaseYoutubeUrl = some "website" := by
  refine ⟨by decide, by decide, by decide⟩

/-- C1 amended: for every model of the syntax validator and every URL,
`get_url_type` returns `youtube` iff the URL is syntactically valid and
its whitespace-stripped form matches the case-sensitive pattern
(optional `http://` or `https://`, optional `www.`, then `youtube.com/`
or `youtu.be/`); it returns `website` iff the URL is valid and the
pattern does not match; and it returns `None` iff the URL is invalid
(in particular for the empty string). -/
theorem get_url_type_classification (validatorsUrl : String → Bool) (url : String) :
    (get_url_type validatorsUrl url = some "youtube" ↔
      is_valid_url validatorsUrl url = true ∧ youtubeRegexMatch (pyStrip url) = true) ∧
    (get_url_type validatorsUrl url = some "website" ↔
      is_valid_url validatorsUrl url = true ∧ youtubeRegexMatch (pyStrip url) = false) ∧
    (get_url_type validatorsUrl url = none ↔ is_valid_url validatorsUrl url = false) := by
  unfold get_url_type is_website_url is_youtube_url
  by_cases h1 : is_valid_url validatorsUrl url = true <;>
    by_cases h2 : youtubeRegexMatch (pyStrip url) = true <;>
      simp_all [Bool.not_eq_true]

/-- Python `str.replace(c, "")`: remove every occurrence of one character. -/
def pyRemoveChar (s : String) (c0 : Char) : String :=
  ⟨s.data.filter (fun c => c != c0)⟩

/-- The key after `api_key.replace("-", "").replace("_", "")`. -/
def strippedKey (api_key : String) : String :=
  pyRemoveChar (pyRemoveChar api_key '-') '_'

/-- Python `str.isalnum()` (alphanumerics restricted to ASCII): true iff
the string is nonempty and every character is alphanumeric.  The
emptiness conjunct is the Python behavior: `"".isalnum()` is `False`. -/
def pyIsAlnum (s : String) : Bool :=
  (s != "") && s.data.all Char.isAlphanum

/-- `APIKeyValidator.validate_groq_key` (src/utils.py lines 95-109):
reject falsy keys, then require length at least 10 and `isalnum` after
removing `-` and `_`. -/
def validate_groq_key (api_key : String) : Bool :=
  if api_key = "" then false
  else decide (10 ≤ api_key.length) && pyIsAlnum (strippedKey api_key)

/-- C2 counterexample: a key of ten underscores is drawn from the
letters/digits/hyphen/underscore alphabet, has length 10, and every
character left after removing `-` and `_` is (vacuously) alphanumeric,
yet the validator rejects it, because Python `"".isalnum()` is false.
So the claim as stated is false at this input. -/
theorem validate_groq_key_rejects_all_underscores :
    validate_groq_key "__________" = false ∧
    ("__________" : String) ≠ "" ∧
    10 ≤ ("__________" : String).length ∧
    (strippedKey "__________").data.all Char.isAlphanum = true := by
  refine ⟨by decide, by decide, by decide, by decide⟩

/-- C2 amended: the validator accepts iff the key has length at least 10
and the string remaining after removing `-` and `_` is nonempty with
every character alphanumeric.  Consequently every string shorter than 10
characters is rejected, and every string of 10 or more characters drawn
from letters, digits, hyphen and underscore that contains at least one
alphanumeric character is accepted. -/
theorem validate_groq_key_spec (key : String) :
    (validate_groq_key key = true ↔
      10 ≤ key.length ∧ strippedKey key ≠ "" ∧
        ∀ c ∈ (strippedKey key).data, c.isAlphanum = true) ∧
    (key.length < 10 → validate_groq_key key = false) ∧
    ((10 ≤ key.length ∧ (∀ c ∈ key.data, c.isAlphanum = true ∨ c = '-' ∨ c = '_') ∧
        (∃ c ∈ key.data, c.isAlphanum = true)) → validate_groq_key key = true) := by
  have hmain : validate_groq_key key = true ↔
      10 ≤ key.length ∧ strippedKey key ≠ "" ∧
        ∀ c ∈ (strippedKey key).data, c.isAlphanum = true := by
    constructor
    · intro h
      unfold validate_groq_key at h
      by_cases hk : key = ""
      · simp [hk] at h
      · simp only [hk, if_false, pyIsAlnum, Bool.and_eq_true, decide_eq_true_eq,
          bne_iff_ne, ne_eq, List.all_eq_true] at h
        exact ⟨h.1, h.2.1, h.2.2⟩
    · rintro ⟨h1, h2, h3⟩
      have hk : key ≠ "" := by
        intro hk
        rw [hk] at h1
        simp at h1
      unfold validate_groq_key
      simp only [hk, if_false, pyIsAlnum, Bool.and_eq_true, decide_eq_true_eq,
        bne_iff_ne, ne_eq, List.all_eq_true]
      exact ⟨h1, h2, h3⟩
  refine ⟨hmain, ?_, ?_⟩
  · intro hshort
    cases hv : validate_groq_key key with
    | false => rfl
    | true =>
      have := (hmain.mp hv).1
      omega
  · rintro ⟨h1, h2, h3⟩
    refine hmain.mpr ⟨h1, ?_, ?_⟩
    · obtain ⟨c, hc, hca⟩ := h3
      have hcdash : c ≠ '-' := by
        intro he
        rw [he] at hca
        exact absurd hca (by decide)
      have hcund : c ≠ '_' := by
        intro he
        rw [he] at hca
        exact absurd hca (by decide)
      have hmem : c ∈ (strippedKey key).data := by
        simp only [strippedKey, pyRemoveChar, List.mem_filter, bne_iff_ne, ne_eq,
          decide_eq_true_eq]
        exact ⟨⟨hc, hcdash⟩, hcund⟩
      intro hempty
      rw [hempty] at hmem
      simp at hmem
    · intro c hc
      have hc' : c ∈ key.data ∧ c ≠ '-' ∧ c ≠ '_' := by
        simp only [strippedKey, pyRemoveChar, List.mem_filter, bne_iff_ne, ne_eq,
          decide_eq_true_eq] at hc
        exact ⟨hc.1.1, hc.1.2, hc.2⟩
      rcases h2 c hc'.1 with h | h | h
      · exact h
      · exact absurd h hc'.2.1
      · exact absurd h hc'.2.2

/-- C2 witness: an 11-character key of letters, digits, one hyphen and
one underscore is accepted. -/
theorem validate_groq_key_spec_witness :
    validate_groq_key "abc-def_123" = true :=
  (validate_groq_key_spec "abc-def_123").2.2 (by decide)

/-- C1 witness: with a validator accepting everything, a plain
`https://youtu.be/x` URL classifies as youtube. -/
theorem get_url_type_classification_witness :
    get_url_type (fun _ => true) "https://youtu.be/x" = some "youtube" :=
  ((get_url_type_classification (fun _ => true) "https://youtu.be/x").1).mpr
    ⟨by decide, by decide⟩

/-- `RateLimiter.__init__` state (src/utils.py lines 177-190): the two
configuration integers.  The per-identifier timestamp dictionary
`self._calls` is threaded explicitly as a function from identifiers to
timestamp lists (a missing dictionary key reads as the empty list, which
is how lines 203-204 initialize it). -/
structure RateLimiter where
  max_calls : ℕ
  period_seconds : ℤ

/-- The `self._calls` dictionary of a `RateLimiter`. -/
abbrev RLCalls := String → List ℚ

/-- The `_calls` dictionary of a freshly constructed rate limiter. -/
def initialCalls : RLCalls := fun _ => []

/-- Dictionary assignment `self._calls[identifier] = l`. -/
def setCalls (calls : RLCalls) (identifier : String) (l : List ℚ) : RLCalls :=
  fun x => if x = identifier then l else calls x

/-- The list comprehension of src/utils.py lines 207-211: keep the call
times with `now - call_time < self.period_seconds`. -/
def pruneCalls (rl : RateLimiter) (now : ℚ) (l : List ℚ) : List ℚ :=
  l.filter (fun t => decide (now - t < (rl.period_seconds : ℚ)))

/-- `RateLimiter.is_allowed` (src/utils.py lines 192-217): prune the
identifier's timestamps, then admit and record `now` when the remaining
count is below `max_calls`, else deny without recording. -/
def is_allowed (rl : RateLimiter) (calls : RLCalls) (identifier : String) (now : ℚ) :
    Bool × RLCalls :=
  let pruned := pruneCalls rl now (calls identifier)
  if pruned.length < rl.max_calls then
    (true, setCalls calls identifier (pruned ++ [now]))
  else
    (false, setCalls calls identifier pruned)

/-- Python `int()` applied to a float: truncation toward zero. -/
def pyInt (q : ℚ) : ℤ :=
  if 0 ≤ q then ⌊q⌋ else ⌈q⌉

/-- `RateLimiter.get_retry_after` (src/utils.py lines 219-225): 0 when no
calls are tracked, else `max(0, int(period - (now - min(calls))) + 1)`. -/
def get_retry_after (rl : RateLimiter) (calls : RLCalls) (identifier : String) (now : ℚ) : ℤ :=
  match calls identifier with
  | [] => 0
  | t :: ts =>
      max 0 (pyInt ((rl.period_seconds : ℚ) - (now - ts.foldl min t)) + 1)

/-- Run a sequence of `is_allowed` calls for one identifier at the given
times, collecting the decisions and threading the dictionary. -/
def runCalls (rl : RateLimiter) (calls : RLCalls) (identifier : String) :
    List ℚ → List Bool × RLCalls
  | [] => ([], calls)
  | t :: ts =>
      let r := is_allowed rl calls identifier t
      let rest := runCalls rl r.2 identifier ts
      (r.1 :: rest.1, rest.2)

theorem setCalls_same (calls : RLCalls) (identifier : String) (l : List ℚ) :
    setCalls calls identifier l identifier = l := by
  simp [setCalls]

theorem setCalls_self (calls : RLCalls) (identifier : String) :
    setCalls calls identifier (calls identifier) = calls := by
  funext x
  by_cases h : x = identifier <;> simp [setCalls, h]

theorem setCalls_setCalls (calls : RLCalls) (identifier : String) (l l' : List ℚ) :
    setCalls (setCalls calls identifier l) identifier l' = setCalls calls identifier l' := by
  funext x
  by_cases h : x = identifier <;> simp [setCalls, h]

theorem pruneCalls_eq_self (rl : RateLimiter) (now : ℚ) (l : List ℚ)
    (h : ∀ x ∈ l, now - x < (rl.period_seconds : ℚ)) :
    pruneCalls rl now l = l := by
  unfold pruneCalls
  rw [List.filter_eq_self]
  intro a ha
  exact decide_eq_true (h a ha)

theorem runCalls_within_window (rl : RateLimiter) (identifier : String) (lo : ℚ)
    (ts : List ℚ) :
    ∀ (calls : RLCalls) (acc : List ℚ),
    calls identifier = acc →
    (∀ x ∈ acc ++ ts, lo ≤ x ∧ x - lo < (rl.period_seconds : ℚ)) →
    acc.length + ts.length ≤ rl.max_calls →
    runCalls rl calls identifier ts =
      (List.replicate ts.length true, setCalls calls identifier (acc ++ ts)) := by
  induction ts with
  | nil =>
    intro calls acc hacc _ _
    simp only [runCalls, List.append_nil, List.replicate]
    rw [← hacc, setCalls_self]
  | cons t ts ih =>
    intro calls acc hacc hbound hlen
    have hmem_t : t ∈ acc ++ t :: ts := by simp
    have hprune : pruneCalls rl t (calls identifier) = acc := by
      rw [hacc]
      apply pruneCalls_eq_self
      intro x hx
      have hxb := hbound x (by simp [hx])
      have htb := hbound t hmem_t
      have : t - x ≤ t - lo := by linarith [hxb.1]
      linarith [htb.2]
    have hlt : (pruneCalls rl t (calls identifier)).length < rl.max_calls := by
      rw [hprune]
      simp only [List.length_cons] at hlen
      omega
    have hstep : is_allowed rl calls identifier t =
        (true, setCalls calls identifier (acc ++ [t])) := by
      unfold is_allowed
      rw [if_pos hlt, hprune]
    have hrec := ih (setCalls calls identifier (acc ++ [t])) (acc ++ [t])
      (setCalls_same _ _ _)
      (by
        intro x hx
        apply hbound
        simp only [List.append_assoc, List.singleton_append] at hx
        exact hx)
      (by
        have h1 : (acc ++ [t]).length = acc.length + 1 := by simp
        have h2 : (t :: ts).length = ts.length + 1 := by simp
        rw [h1]
        rw [h2] at hlen
        omega)
    unfold runCalls
    rw [hstep]
    simp only [hrec, setCalls_setCalls, List.append_assoc, List.singleton_append,
      List.length_cons, List.replicate_succ]

/-- C3: starting from a fresh limiter with `max_calls = N`, any `N`
consecutive `is_allowed` calls whose times all lie within a window
shorter than `period_seconds` after the first call are all allowed; a
further call `tD` inside that window is denied and leaves the recorded
timestamps unchanged (the denial records nothing); a call more than
`period_seconds` after the first recorded call is allowed again; and
after any `is_allowed` call every timestamp recorded for the identifier
lies strictly inside the period window, because the call prunes expired
timestamps before checking the count. -/
theorem rate_limiter_window_behavior (rl : RateLimiter) (identifier : String)
    (t0 tD tR : ℚ) (rest : List ℚ)
    (hlen : (t0 :: rest).length = rl.max_calls)
    (hbound : ∀ x ∈ t0 :: rest ++ [tD], t0 ≤ x ∧ x - t0 < (rl.period_seconds : ℚ))
    (hR : t0 + (rl.period_seconds : ℚ) < tR) :
    (runCalls rl initialCalls identifier (t0 :: rest)).1 =
      List.replicate rl.max_calls true ∧
    (is_allowed rl (runCalls rl initialCalls identifier (t0 :: rest)).2 identifier tD).1 =
      false ∧
    (is_allowed rl (runCalls rl initialCalls identifier (t0 :: rest)).2 identifier tD).2 =
      (runCalls rl initialCalls identifier (t0 :: rest)).2 ∧
    (is_allowed rl (runCalls rl initialCalls identifier (t0 :: rest)).2 identifier tR).1 =
      true ∧
    (∀ (calls : RLCalls) (now x : ℚ), 0 < rl.period_seconds →
      x ∈ (is_allowed rl calls identifier now).2 identifier →
      now - x < (rl.period_seconds : ℚ)) := by
  have hbound' : ∀ x ∈ ([] : List ℚ) ++ t0 :: rest, t0 ≤ x ∧ x - t0 < (rl.period_seconds : ℚ) := by
    intro x hx
    apply hbound
    simp only [List.nil_append] at hx
    rcases List.mem_cons.mp hx with h | h
    · simp [h]
    · simp [h]
  have hrun := runCalls_within_window rl identifier t0 (t0 :: rest) initialCalls []
    rfl hbound' (by simp [hlen.symm])
  obtain ⟨s, hs⟩ : ∃ s, (runCalls rl initialCalls identifier (t0 :: rest)).2 = s := ⟨_, rfl⟩
  have hstate : s identifier = t0 :: rest := by
    rw [← hs, hrun]
    simp [setCalls_same]
  have hwithinD : ∀ x ∈ t0 :: rest, tD - x < (rl.period_seconds : ℚ) := by
    intro x hx
    have hxb : t0 ≤ x := by
      refine (hbound x ?_).1
      rcases List.mem_cons.mp hx with h | h
      · simp [h]
      · simp [h]
    have hDb := hbound tD (by simp)
    linarith [hDb.2]
  have hlenN : rest.length + 1 = rl.max_calls := by simpa using hlen
  have hD : is_allowed rl s identifier tD = (false, s) := by
    unfold is_allowed
    have hpruneD : pruneCalls rl tD (s identifier) = t0 :: rest := by
      rw [hstate]
      exact pruneCalls_eq_self _ _ _ hwithinD
    rw [hpruneD, if_neg (by simp; omega)]
    rw [← hstate, setCalls_self]
  have hRallowed : (is_allowed rl s identifier tR).1 = true := by
    unfold is_allowed
    have hdropR : pruneCalls rl tR (s identifier) = pruneCalls rl tR rest := by
      rw [hstate]
      unfold pruneCalls
      rw [List.filter_cons_of_neg]
      simp only [decide_eq_true_eq, not_lt]
      linarith
    rw [hdropR, if_pos ?_]
    have h1 : (pruneCalls rl tR rest).length ≤ rest.length := List.length_filter_le _ _
    omega
  rw [hs]
  refine ⟨?_, ?_, ?_, ?_, ?_⟩
  · rw [hrun, ← hlen]
  · rw [hD]
  · rw [hD]
  · exact hRallowed
  · intro calls now x hP hx
    have hx' : x ∈ pruneCalls rl now (calls identifier) ∨ x = now := by
      by_cases hc : (pruneCalls rl now (calls identifier)).length < rl.max_calls
      · simp only [is_allowed, if_pos hc, setCalls_same, List.mem_append,
          List.mem_singleton] at hx
        exact hx
      · simp only [is_allowed, if_neg hc, setCalls_same] at hx
        exact Or.inl hx
    rcases hx' with h | h
    · unfold pruneCalls at h
      have := List.of_mem_filter h
      simpa using this
    · subst h
      simp only [sub_self]
      exact_mod_cast hP

/-- C3 witness: a limiter with `max_calls = 2`, `period_seconds = 10`;
calls at times 0 and 1 are allowed, a third call at time 2 is denied,
and a call at time 11 is allowed again. -/
theorem rate_limiter_window_behavior_witness :
    (runCalls ⟨2, 10⟩ initialCalls "default" [0, 1]).1 = List.replicate 2 true ∧
    (is_allowed ⟨2, 10⟩ (runCalls ⟨2, 10⟩ initialCalls "default" [0, 1]).2 "default" 2).1 =
      false ∧
    (is_allowed ⟨2, 10⟩ (runCalls ⟨2, 10⟩ initialCalls "default" [0, 1]).2 "default" 11).1 =
      true := by
  have h := rate_limiter_window_behavior ⟨2, 10⟩ "default" 0 2 11 [1]
    (by decide)
    (by intro x hx; fin_cases hx <;> norm_num)
    (by norm_num)
  exact ⟨h.1, h.2.1, h.2.2.2.1⟩

theorem foldl_min_mem (t : ℚ) (ts : List ℚ) : ts.foldl min t ∈ t :: ts := by
  induction ts generalizing t with
  | nil => simp [List.foldl]
  | cons u ts ih =>
    simp only [List.foldl]
    have h := ih (min t u)
    rcases List.mem_cons.mp h with h | h
    · rcases min_choice t u with hc | hc
      · exact List.mem_cons.mpr (Or.inl (h.trans hc))
      · simp [h.trans hc]
    · simp [h]

theorem foldl_min_le_init (t : ℚ) (ts : List ℚ) : ts.foldl min t ≤ t := by
  induction ts generalizing t with
  | nil => simp [List.foldl]
  | cons u ts ih =>
    simp only [List.foldl]
    exact le_trans (ih (min t u)) (min_le_left t u)

theorem foldl_min_le_of_mem (x : ℚ) (ts : List ℚ) (hx : x ∈ ts) :
    ∀ t : ℚ, ts.foldl min t ≤ x := by
  induction ts with
  | nil => simp at hx
  | cons u ts ih =>
    intro t
    simp only [List.foldl]
    rcases List.mem_cons.mp hx with h | h
    · subst h
      exact le_trans (foldl_min_le_init (min t x) ts) (min_le_right t x)
    · exact ih h (min t u)

theorem foldl_min_le (t : ℚ) (ts : List ℚ) : ∀ x ∈ t :: ts, ts.foldl min t ≤ x := by
  intro x hx
  rcases List.mem_cons.mp hx with h | h
  · subst h
    exact foldl_min_le_init x ts
  · exact foldl_min_le_of_mem x ts h t

theorem pyInt_intCast (z : ℤ) : pyInt (z : ℚ) = z := by
  unfold pyInt
  split <;> simp

/-- C6: `get_retry_after` returns 0 when no calls are tracked for the
identifier; otherwise it returns `period_seconds - (now - oldest) + 1`
floored at 0, where `oldest` is the minimum recorded timestamp (shown
here both through the exact Python `int` truncation and, at
integer-valued times, as the claimed formula itself); and with a
`max_calls = 1` limiter and two back-to-back calls inside the period,
the second call is denied and the retry-after reported at that moment is
positive and at most `period_seconds`. -/
theorem get_retry_after_formula (rl : RateLimiter) (calls : RLCalls)
    (identifier : String) (now : ℚ) :
    (calls identifier = [] → get_retry_after rl calls identifier now = 0) ∧
    (∀ t ts, calls identifier = t :: ts →
      ∃ m, m ∈ t :: ts ∧ (∀ x ∈ t :: ts, m ≤ x) ∧
        get_retry_after rl calls identifier now =
          max 0 (pyInt ((rl.period_seconds : ℚ) - (now - m)) + 1) ∧
        (∀ n k : ℤ, now = (n : ℚ) → m = (k : ℚ) →
          get_retry_after rl calls identifier now =
            max 0 (rl.period_seconds - (n - k) + 1))) ∧
    (∀ t0 t1 : ℚ, rl.max_calls = 1 → 0 < rl.period_seconds →
      t0 < t1 → t1 - t0 < (rl.period_seconds : ℚ) →
      (is_allowed rl initialCalls identifier t0).1 = true ∧
      (is_allowed rl (is_allowed rl initialCalls identifier t0).2 identifier t1).1 = false ∧
      0 < get_retry_after rl
          (is_allowed rl (is_allowed rl initialCalls identifier t0).2 identifier t1).2
          identifier t1 ∧
      get_retry_after rl
          (is_allowed rl (is_allowed rl initialCalls identifier t0).2 identifier t1).2
          identifier t1 ≤ rl.period_seconds) := by
  refine ⟨?_, ?_, ?_⟩
  · intro h
    unfold get_retry_after
    rw [h]
  · intro t ts h
    have heq : get_retry_after rl calls identifier now =
        max 0 (pyInt ((rl.period_seconds : ℚ) - (now - ts.foldl min t)) + 1) := by
      unfold get_retry_after
      rw [h]
    refine ⟨ts.foldl min t, foldl_min_mem t ts, foldl_min_le t ts, heq, ?_⟩
    intro n k hn hk
    rw [heq, hk, hn]
    have hcast : ((rl.period_seconds : ℚ) - ((n : ℚ) - (k : ℚ))) =
        ((rl.period_seconds - (n - k) : ℤ) : ℚ) := by
      push_cast
      ring
    rw [hcast, pyInt_intCast]
  · intro t0 t1 h1 hP hlt hwin
    set s1 : RLCalls := setCalls initialCalls identifier [t0] with hs1
    have hstep1 : is_allowed rl initialCalls identifier t0 = (true, s1) := by
      unfold is_allowed
      have hpr : pruneCalls rl t0 (initialCalls identifier) = [] := rfl
      rw [hpr, if_pos (by simp [h1])]
      rfl
    have hs1id : s1 identifier = [t0] := setCalls_same _ _ _
    have hstep2 : is_allowed rl s1 identifier t1 = (false, s1) := by
      unfold is_allowed
      have hpr : pruneCalls rl t1 (s1 identifier) = [t0] := by
        rw [hs1id]
        apply pruneCalls_eq_self
        intro x hx
        rw [List.mem_singleton] at hx
        subst hx
        exact hwin
      rw [hpr, if_neg (by simp [h1])]
      rw [hs1, setCalls_setCalls]
    have hq : (0 : ℚ) ≤ (rl.period_seconds : ℚ) - (t1 - t0) := by linarith
    have hretry : get_retry_after rl s1 identifier t1 =
        max 0 (⌊(rl.period_seconds : ℚ) - (t1 - t0)⌋ + 1) := by
      have hbase : get_retry_after rl s1 identifier t1 =
          max 0 (pyInt ((rl.period_seconds : ℚ) - (t1 - t0)) + 1) := by
        unfold get_retry_after
        rw [hs1id]
        rfl
      rw [hbase]
      unfold pyInt
      rw [if_pos hq]
    refine ⟨by rw [hstep1], ?_, ?_, ?_⟩
    · simp only [hstep1, hstep2]
    · simp only [hstep1, hstep2]
      rw [hretry]
      have hfl : (0 : ℤ) ≤ ⌊(rl.period_seconds : ℚ) - (t1 - t0)⌋ :=
        Int.floor_nonneg.mpr hq
      omega
    · simp only [hstep1, hstep2]
      rw [hretry]
      have hfl : ⌊(rl.period_seconds : ℚ) - (t1 - t0)⌋ < rl.period_seconds := by
        rw [Int.floor_lt]
        linarith
      omega

/-- C6 witness: limiter with `max_calls = 1`, `period_seconds = 5`,
calls at times 0 and 1: the second call is denied and the reported
retry-after is positive and at most 5. -/
theorem get_retry_after_formula_witness :
    (is_allowed ⟨1, 5⟩ initialCalls "default" 0).1 = true ∧
    (is_allowed ⟨1, 5⟩ (is_allowed ⟨1, 5⟩ initialCalls "default" 0).2 "default" 1).1 = false ∧
    0 < get_retry_after ⟨1, 5⟩
        (is_allowed ⟨1, 5⟩ (is_allowed ⟨1, 5⟩ initialCalls "default" 0).2 "default" 1).2
        "default" 1 ∧
    get_retry_after ⟨1, 5⟩
        (is_allowed ⟨1, 5⟩ (is_allowed ⟨1, 5⟩ initialCalls "default" 0).2 "default" 1).2
        "default" 1 ≤ 5 :=
  (get_retry_after_formula ⟨1, 5⟩ initialCalls "default" 1).2.2 0 1 rfl
    (by decide) (by norm_num) (by norm_num)

/-- An operation against the rate limiter: an `is_allowed` call or a
`get_retry_after` call, each at a given time. -/
inductive RLOp where
  | isAllowedCall (identifier : String) (now : ℚ)
  | retryAfterCall (identifier : String) (now : ℚ)

/-- The visible result of one rate-limiter operation. -/
inductive RLOut where
  | decision (b : Bool)
  | retry (n : ℤ)

/-- One rate-limiter operation: `is_allowed` consults and updates the
`_calls` dictionary, `get_retry_after` only reads it (src/utils.py lines
219-225 perform no assignment, append, or deletion). -/
def rlStep (rl : RateLimiter) (calls : RLCalls) : RLOp → RLOut × RLCalls
  | .isAllowedCall identifier now =>
      (.decision (is_allowed rl calls identifier now).1,
        (is_allowed rl calls identifier now).2)
  | .retryAfterCall identifier now =>
      (.retry (get_retry_after rl calls identifier now), calls)

/-- Run a sequence of rate-limiter operations, threading the dictionary. -/
def rlRun (rl : RateLimiter) (calls : RLCalls) : List RLOp → List RLOut × RLCalls
  | [] => ([], calls)
  | op :: ops =>
      let s := rlStep rl calls op
      let rest := rlRun rl s.2 ops
      (s.1 :: rest.1, rest.2)

/-- Keep only the `is_allowed` operations of a schedule. -/
def isAllowedOnly (ops : List RLOp) : List RLOp :=
  ops.filter fun op => match op with
    | .isAllowedCall _ _ => true
    | .retryAfterCall _ _ => false

/-- Keep only the `is_allowed` decisions of an output trace. -/
def decisionsOnly (outs : List RLOut) : List RLOut :=
  outs.filter fun o => match o with
    | .decision _ => true
    | .retry _ => false

/-- C10: a `get_retry_after` step leaves the recorded call timestamps
unchanged for every identifier and every state, and therefore deleting
the `get_retry_after` calls from any schedule of operations changes
neither the final dictionary nor the sequence of `is_allowed`
decisions. -/
theorem get_retry_after_frame (rl : RateLimiter) (calls : RLCalls) (ops : List RLOp) :
    (∀ identifier now, (rlStep rl calls (.retryAfterCall identifier now)).2 = calls) ∧
    (rlRun rl calls (isAllowedOnly ops)).2 = (rlRun rl calls ops).2 ∧
    (rlRun rl calls (isAllowedOnly ops)).1 = decisionsOnly (rlRun rl calls ops).1 := by
  refine ⟨fun _ _ => rfl, ?_⟩
  induction ops generalizing calls with
  | nil => exact ⟨rfl, rfl⟩
  | cons op ops ih =>
    cases op with
    | isAllowedCall identifier now =>
      have h := ih (is_allowed rl calls identifier now).2
      refine ⟨?_, ?_⟩
      · simpa [isAllowedOnly, rlRun, rlStep, List.filter] using h.1
      · simpa [isAllowedOnly, decisionsOnly, rlRun, rlStep, List.filter] using h.2
    | retryAfterCall identifier now =>
      have h := ih calls
      refine ⟨?_, ?_⟩
      · simpa [isAllowedOnly, rlRun, rlStep, List.filter] using h.1
      · simpa [isAllowedOnly, decisionsOnly, rlRun, rlStep, List.filter] using h.2


/-- C10 witness: interleaving a `get_retry_after` call between two
`is_allowed` calls changes neither the final dictionary nor the
decision trace. -/
theorem get_retry_after_frame_witness :
    (rlRun ⟨1, 5⟩ initialCalls
      (isAllowedOnly [RLOp.isAllowedCall "default" 0, RLOp.retryAfterCall "default" 0,
        RLOp.isAllowedCall "default" 1])).2 =
    (rlRun ⟨1, 5⟩ initialCalls
      [RLOp.isAllowedCall "default" 0, RLOp.retryAfterCall "default" 0,
        RLOp.isAllowedCall "default" 1]).2 :=
  (get_retry_after_frame ⟨1, 5⟩ initialCalls
    [RLOp.isAllowedCall "default" 0, RLOp.retryAfterCall "default" 0,
      RLOp.isAllowedCall "default" 1]).2.1
/-- A Python `dict` keyed by strings, as an association list; lookup
returns the (unique) entry for a key. -/
def dictLookup {β : Type} (m : List (String × β)) (k : String) : Option β :=
  (m.find? (fun p => p.1 == k)).map Prod.snd

/-- Python `d[k] = v`: overwrite the entry in place when the key is
present, otherwise append a new entry. -/
def dictSet {β : Type} (m : List (String × β)) (k : String) (v : β) : List (String × β) :=
  if m.any (fun p => p.1 == k) then
    m.map (fun p => if p.1 == k then (k, v) else p)
  else m ++ [(k, v)]

/-- Python `del d[k]`. -/
def dictDel {β : Type} (m : List (String × β)) (k : String) : List (String × β) :=
  m.filter (fun p => p.1 != k)

theorem dictLookup_cons_eq {β : Type} (p : String × β) (m : List (String × β)) (k : String)
    (h : p.1 = k) : dictLookup (p :: m) k = some p.2 := by
  unfold dictLookup
  rw [List.find?_cons_of_pos]
  · rfl
  · simpa using h

theorem dictLookup_cons_ne {β : Type} (p : String × β) (m : List (String × β)) (k : String)
    (h : p.1 ≠ k) : dictLookup (p :: m) k = dictLookup m k := by
  unfold dictLookup
  rw [List.find?_cons_of_neg]
  simpa using h

theorem dictLookup_dictSet_self {β : Type} (m : List (String × β)) (k : String) (v : β) :
    dictLookup (dictSet m k v) k = some v := by
  induction m with
  | nil =>
    unfold dictSet
    rw [if_neg (by simp)]
    simp only [List.nil_append]
    exact dictLookup_cons_eq (k, v) [] k rfl
  | cons p m ih =>
    by_cases hp : p.1 = k
    · have hany : (p :: m).any (fun q => q.1 == k) = true := by simp [List.any_cons, hp]
      unfold dictSet
      rw [if_pos hany]
      simp only [List.map_cons]
      rw [if_pos (by simpa using hp)]
      exact dictLookup_cons_eq (k, v) _ k rfl
    · by_cases hm : m.any (fun q => q.1 == k) = true
      · have hany : (p :: m).any (fun q => q.1 == k) = true := by simp [List.any_cons, hm]
        unfold dictSet at ih ⊢
        rw [if_pos hany]
        rw [if_pos hm] at ih
        simp only [List.map_cons]
        rw [if_neg (by simpa using hp)]
        rw [dictLookup_cons_ne _ _ k hp]
        exact ih
      · have hm' : m.any (fun q => q.1 == k) = false := by
          cases hb : m.any (fun q => q.1 == k)
          · rfl
          · exact absurd hb hm
        have hany : (p :: m).any (fun q => q.1 == k) = false := by
          simp [List.any_cons, hp, hm']
        unfold dictSet at ih ⊢
        rw [if_neg (by simp [hany])]
        rw [if_neg hm] at ih
        simp only [List.cons_append]
        rw [dictLookup_cons_ne p _ k hp]
        exact ih

theorem dictDel_length {β : Type} (m : List (String × β)) (k : String) (e : β)
    (hnodup : (m.map Prod.fst).Nodup) (h : dictLookup m k = some e) :
    (dictDel m k).length + 1 = m.length := by
  induction m with
  | nil => simp [dictLookup] at h
  | cons p m ih =>
    by_cases hp : p.1 = k
    · have hk : k ∉ m.map Prod.fst := by
        rw [← hp]
        exact (List.nodup_cons.mp (by simpa using hnodup)).1
      have hfilter : dictDel m k = m := by
        unfold dictDel
        apply List.filter_eq_self.mpr
        intro q hq
        have hq1 : q.1 ∈ m.map Prod.fst := List.mem_map_of_mem Prod.fst hq
        have : q.1 ≠ k := fun he => hk (he ▸ hq1)
        simpa using this
      unfold dictDel
      rw [List.filter_cons_of_neg (by simpa using hp)]
      unfold dictDel at hfilter
      rw [hfilter]
      simp
    · have htail : dictLookup m k = some e := by
        rw [← dictLookup_cons_ne p m k hp]
        exact h
      have hnodup' : (m.map Prod.fst).Nodup :=
        (List.nodup_cons.mp (by simpa using hnodup)).2
      unfold dictDel
      rw [List.filter_cons_of_pos (by simpa using hp)]
      have := ih hnodup' htail
      unfold dictDel at this
      simp only [List.length_cons]
      omega

/-- One `self._cache[hash_key]` record of `SimpleCache` (src/utils.py
lines 138-141): the stored value and its `time.time()` timestamp. -/
structure CacheEntry (α : Type) where
  value : α
  timestamp : ℚ

/-- `SimpleCache` state (src/utils.py lines 112-127): the TTL in seconds
(an `int` in the source) and the `self._cache` dictionary, keyed by the
`_get_hash` digest of the logical key.  The md5 digest itself is a
third-party primitive and is abstracted as the `md5hex` parameter of the
operations below. -/
structure SimpleCache (α : Type) where
  ttl_seconds : ℤ
  cache : List (String × CacheEntry α)

/-- `SimpleCache.set` (src/utils.py lines 129-142): store the value with
the current timestamp under the hashed key. -/
def SimpleCache.set {α : Type} (md5hex : String → String) (c : SimpleCache α)
    (key : String) (value : α) (now : ℚ) : SimpleCache α :=
  { c with cache := dictSet c.cache (md5hex key) ⟨value, now⟩ }

/-- `SimpleCache.get` (src/utils.py lines 144-165): miss when the hashed
key is absent; when `now - timestamp > ttl_seconds` delete the entry and
miss; otherwise hit. -/
def SimpleCache.get {α : Type} (md5hex : String → String) (c : SimpleCache α)
    (key : String) (now : ℚ) : Option α × SimpleCache α :=
  match dictLookup c.cache (md5hex key) with
  | none => (none, c)
  | some e =>
      if (c.ttl_seconds : ℚ) < now - e.timestamp then
        (none, { c with cache := dictDel c.cache (md5hex key) })
      else (some e.value, c)

/-- `SimpleCache.get_size` (src/utils.py lines 172-174). -/
def SimpleCache.get_size {α : Type} (c : SimpleCache α) : ℕ :=
  c.cache.length

theorem SimpleCache.get_of_lookup {α : Type} (md5hex : String → String)
    (c : SimpleCache α) (key : String) (now : ℚ) (e : CacheEntry α)
    (h : dictLookup c.cache (md5hex key) = some e) :
    SimpleCache.get md5hex c key now =
      if (c.ttl_seconds : ℚ) < now - e.timestamp then
        (none, { c with cache := dictDel c.cache (md5hex key) })
      else (some e.value, c) := by
  unfold SimpleCache.get
  rw [h]

theorem SimpleCache.get_hit {α : Type} (md5hex : String → String)
    (c : SimpleCache α) (key : String) (now : ℚ) (e : CacheEntry α)
    (h : dictLookup c.cache (md5hex key) = some e)
    (hfresh : ¬ ((c.ttl_seconds : ℚ) < now - e.timestamp)) :
    SimpleCache.get md5hex c key now = (some e.value, c) := by
  rw [SimpleCache.get_of_lookup md5hex c key now e h, if_neg hfresh]

/-- C4: a `set` followed by a `get` of the same key within the TTL
returns the stored value; a `get` strictly more than `ttl_seconds` after
the entry was stored returns `None`, deletes the entry, and the entry
count reported afterwards is one less; and a `set` on an existing key
overwrites the prior value and resets its timestamp (the entry under the
hashed key becomes the new value with the new time). -/
theorem simple_cache_ttl {α : Type} (md5hex : String → String) (c : SimpleCache α)
    (k : String) (v : α) (t t' : ℚ) :
    (t' - t ≤ (c.ttl_seconds : ℚ) →
      (SimpleCache.get md5hex (SimpleCache.set md5hex c k v t) k t').1 = some v) ∧
    (∀ e : CacheEntry α, (c.cache.map Prod.fst).Nodup →
      dictLookup c.cache (md5hex k) = some e →
      (c.ttl_seconds : ℚ) < t' - e.timestamp →
      (SimpleCache.get md5hex c k t').1 = none ∧
      (SimpleCache.get md5hex c k t').2.get_size + 1 = c.get_size) ∧
    dictLookup (SimpleCache.set md5hex c k v t).cache (md5hex k) = some ⟨v, t⟩ := by
  have hset : dictLookup (SimpleCache.set md5hex c k v t).cache (md5hex k) =
      some ⟨v, t⟩ := dictLookup_dictSet_self c.cache (md5hex k) ⟨v, t⟩
  refine ⟨?_, ?_, hset⟩
  · intro hin
    have hfresh : ¬ (((SimpleCache.set md5hex c k v t).ttl_seconds : ℚ) <
        t' - (show CacheEntry α from ⟨v, t⟩).timestamp) := not_lt.mpr hin
    rw [SimpleCache.get_hit md5hex _ k t' _ hset hfresh]
  · intro e hnodup hlook hexp
    rw [SimpleCache.get_of_lookup md5hex c k t' e hlook, if_pos hexp]
    refine ⟨rfl, ?_⟩
    unfold SimpleCache.get_size
    exact dictDel_length c.cache (md5hex k) e hnodup hlook

/-- C4 witness: with the identity digest and TTL 10, a value stored at
time 0 is returned at time 1; and in a one-entry cache the same lookup
at time 11 misses and the size drops from 1 to 0. -/
theorem simple_cache_ttl_witness :
    (SimpleCache.get (fun s => s)
      (SimpleCache.set (fun s => s) ⟨10, []⟩ "key" (0 : ℕ) 0) "key" 1).1 = some 0 ∧
    (SimpleCache.get (fun s => s)
      (⟨10, [("key", ⟨0, 0⟩)]⟩ : SimpleCache ℕ) "key" 11).1 = none ∧
    (SimpleCache.get (fun s => s)
      (⟨10, [("key", ⟨0, 0⟩)]⟩ : SimpleCache ℕ) "key" 11).2.get_size + 1 =
      SimpleCache.get_size (⟨10, [("key", ⟨0, 0⟩)]⟩ : SimpleCache ℕ) := by
  have h1 := (simple_cache_ttl (fun s => s) (⟨10, []⟩ : SimpleCache ℕ) "key" 0 0 1).1
    (by norm_num [SimpleCache.set])
  have h2 := (simple_cache_ttl (fun s => s) (⟨10, [("key", ⟨0, 0⟩)]⟩ : SimpleCache ℕ)
      "key" 0 0 11).2.1 ⟨0, 0⟩ (by simp) rfl (by norm_num)
  exact ⟨h1, h2.1, h2.2⟩

/-- The runtime shape of an `AppException` (src/exceptions.py lines
8-33): a human-readable message, a machine-readable error code, and a
details dictionary (modelled as a key-value list). -/
structure AppErr where
  message : String
  error_code : String
  details : List (String × String)

/-- `AppException.__init__` (src/exceptions.py lines 11-25). -/
def AppException (message error_code : String) (details : List (String × String)) : AppErr :=
  ⟨message, error_code, details⟩

/-- `YouTubeProcessingException` (src/exceptions.py lines 52-57). -/
def YouTubeProcessingException (message : String) (details : List (String × String)) : AppErr :=
  AppException message "YOUTUBE_ERROR" details

/-- `WebsiteProcessingException` (src/exceptions.py lines 60-65). -/
def WebsiteProcessingException (message : String) (details : List (String × String)) : AppErr :=
  AppException message "WEBSITE_ERROR" details

/-- `TranscriptionException` (src/exceptions.py lines 68-73). -/
def TranscriptionException (message : String) (details : List (String × String)) : AppErr :=
  AppException message "TRANSCRIPTION_ERROR" details

/-- `SummarizationException` (src/exceptions.py lines 76-81). -/
def SummarizationException (message : String) (details : List (String × String)) : AppErr :=
  AppException message "SUMMARIZATION_ERROR" details

/-- `GroqAPIException` (src/exceptions.py lines 44-49). -/
def GroqAPIException (message : String) (details : List (String × String)) : AppErr :=
  AppException message "GROQ_API_ERROR" details

theorem append_ne_empty_left (s t : String) (h : s ≠ "") : s ++ t ≠ "" := by
  cases s with | mk sd =>
  cases t with | mk td =>
  intro he
  apply h
  have hd : sd ++ td = ([] : List Char) := congrArg String.data he
  rcases List.append_eq_nil.mp hd with ⟨h1, _⟩
  exact congrArg String.mk h1

/-- `YouTubeService.download_and_transcribe` (src/services.py lines
33-113).  The third-party stages are oracles: `ytdlpDownload` models the
yt-dlp download block and reports whether the mp3 file exists afterwards
(`.error` carries the message of the exception the library raised);
`whisperTranscribe` models Whisper transcription and returns the raw
`result["text"]`.  The source re-raises its own
`YouTubeProcessingException` and `TranscriptionException` unchanged
(lines 104-107) and wraps any other exception, preserving `str(e)` in
the message and the `original_error` detail (lines 108-113). -/
def download_and_transcribe
    (ytdlpDownload : String → Except String Bool)
    (whisperTranscribe : String → Except String String)
    (url : String) : Except AppErr String :=
  match ytdlpDownload url with
  | .error e =>
      .error (YouTubeProcessingException ("Failed to process YouTube video: " ++ e)
        [("original_error", e)])
  | .ok audioExists =>
      if !audioExists then
        .error (YouTubeProcessingException "Audio file not found after download." [])
      else
        match whisperTranscribe url with
        | .error e =>
            .error (YouTubeProcessingException ("Failed to process YouTube video: " ++ e)
              [("original_error", e)])
        | .ok text =>
            if pyStrip text = "" then
              .error (TranscriptionException "Transcription resulted in empty text." [])
            else .ok (pyStrip text)

/-- `Config.MAX_WEBSITE_CONTENT_LENGTH` (src/config.py line 36). -/
def MAX_WEBSITE_CONTENT_LENGTH : ℕ := 4000

/-- Python slicing `s[:n]` over the character list. -/
def pySlice (s : String) (n : ℕ) : String :=
  ⟨s.data.take n⟩

/-- `WebsiteService.load_and_extract` (src/services.py lines 119-169),
with the third-party `WebBaseLoader(url).load()` as the oracle
`webBaseLoad` (a document is just its `page_content` text; `.error`
carries the message of the exception the loader raised).  Its own
`WebsiteProcessingException`s are re-raised unchanged (lines 162-163);
any other exception is wrapped with `str(e)` preserved (lines 164-169).
Documents longer than `MAX_WEBSITE_CONTENT_LENGTH` are truncated by the
plain slice `doc.page_content[:MAX_WEBSITE_CONTENT_LENGTH]` (lines
149-157). -/
def load_and_extract (webBaseLoad : String → Except String (List String))
    (url : String) : Except AppErr (List String) :=
  match webBaseLoad url with
  | .error e =>
      .error (WebsiteProcessingException ("Failed to load website content: " ++ e)
        [("original_error", e)])
  | .ok [] =>
      .error (WebsiteProcessingException "No content found on the website." [])
  | .ok (d :: ds) =>
      if pyStrip d = "" then
        .error (WebsiteProcessingException "Website content is empty or not readable." [])
      else
        .ok ((d :: ds).map (fun s =>
          if MAX_WEBSITE_CONTENT_LENGTH < s.length then
            pySlice s MAX_WEBSITE_CONTENT_LENGTH
          else s))

/-- `SummarizationService.summarize` (src/services.py lines 242-289)
together with `get_llm` (lines 185-201): `chatGroqInit` models the
`ChatGroq(...)` constructor (`.error` carries the message of the
exception it raised, which `get_llm` wraps into a `GroqAPIException`
with the fixed message "Failed to initialize summarization service");
`chainRun` models `load_summarize_chain(llm, ...).run(docs)`.  A
`SummarizationException` raised in the body is re-raised unchanged
(lines 282-283); any other exception — including the `GroqAPIException`
escaping `get_llm` — is wrapped into a `SummarizationException` whose
message and `original_error` detail carry `str(e)` (lines 284-289). -/
def summarize (chatGroqInit : Except String Unit)
    (chainRun : List String → Except String String)
    (docs : List String) : Except AppErr String :=
  if docs = [] then
    .error (SummarizationException "No documents provided for summarization" [])
  else
    match chatGroqInit with
    | .error e =>
        .error (SummarizationException
          ("Failed to summarize content: " ++
            (GroqAPIException "Failed to initialize summarization service"
              [("original_error", e)]).message)
          [("original_error",
            (GroqAPIException "Failed to initialize summarization service"
              [("original_error", e)]).message)])
    | .ok _ =>
        match chainRun docs with
        | .error e =>
            .error (SummarizationException ("Failed to summarize content: " ++ e)
              [("original_error", e)])
        | .ok summary =>
            if pyStrip summary = "" then
              .error (SummarizationException "Summarization resulted in empty output" [])
            else .ok (pyStrip summary)

/-- C7: when the loader yields no documents, or the first document
strips to empty text, `load_and_extract` fails with a website-kind
error; otherwise it returns the documents with every segment hard-cut
(a plain character slice, not sentence-aware) to the configured maximum
website content length, so every returned segment has length at most
4000. -/
theorem load_and_extract_truncates (webBaseLoad : String → Except String (List String))
    (url : String) :
    (webBaseLoad url = .ok [] →
      ∃ e, load_and_extract webBaseLoad url = .error e ∧
        e.error_code = "WEBSITE_ERROR") ∧
    (∀ d ds, webBaseLoad url = .ok (d :: ds) → pyStrip d = "" →
      ∃ e, load_and_extract webBaseLoad url = .error e ∧
        e.error_code = "WEBSITE_ERROR") ∧
    (∀ d ds, webBaseLoad url = .ok (d :: ds) → pyStrip d ≠ "" →
      load_and_extract webBaseLoad url =
        .ok ((d :: ds).map (fun s => pySlice s MAX_WEBSITE_CONTENT_LENGTH)) ∧
      ∀ s2 ∈ (d :: ds).map (fun s => pySlice s MAX_WEBSITE_CONTENT_LENGTH),
        s2.length ≤ MAX_WEBSITE_CONTENT_LENGTH) := by
  have hslice : ∀ s : String,
      (if MAX_WEBSITE_CONTENT_LENGTH < s.length then pySlice s MAX_WEBSITE_CONTENT_LENGTH
       else s) = pySlice s MAX_WEBSITE_CONTENT_LENGTH := by
    intro s
    by_cases h : MAX_WEBSITE_CONTENT_LENGTH < s.length
    · rw [if_pos h]
    · rw [if_neg h]
      unfold pySlice
      rw [List.take_of_length_le (Nat.le_of_not_lt h)]
  refine ⟨?_, ?_, ?_⟩
  · intro h
    refine ⟨WebsiteProcessingException "No content found on the website." [], ?_, rfl⟩
    unfold load_and_extract
    rw [h]
  · intro d ds h hempty
    refine ⟨WebsiteProcessingException "Website content is empty or not readable." [], ?_, rfl⟩
    have heq : load_and_extract webBaseLoad url =
        (if pyStrip d = "" then
          .error (WebsiteProcessingException "Website content is empty or not readable." [])
        else
          .ok ((d :: ds).map (fun s =>
            if MAX_WEBSITE_CONTENT_LENGTH < s.length then
              pySlice s MAX_WEBSITE_CONTENT_LENGTH
            else s))) := by
      unfold load_and_extract
      rw [h]
    rw [heq, if_pos hempty]
  · intro d ds h hne
    have heq : load_and_extract webBaseLoad url =
        (if pyStrip d = "" then
          .error (WebsiteProcessingException "Website content is empty or not readable." [])
        else
          .ok ((d :: ds).map (fun s =>
            if MAX_WEBSITE_CONTENT_LENGTH < s.length then
              pySlice s MAX_WEBSITE_CONTENT_LENGTH
            else s))) := by
      unfold load_and_extract
      rw [h]
    constructor
    · rw [heq, if_neg hne]
      congr 1
      exact List.map_congr_left (fun s _ => hslice s)
    · intro s2 hs2
      rcases List.mem_map.mp hs2 with ⟨s, _, rfl⟩
      unfold pySlice
      show (s.data.take MAX_WEBSITE_CONTENT_LENGTH).length ≤ MAX_WEBSITE_CONTENT_LENGTH
      rw [List.length_take]
      exact min_le_left _ _

/-- A 4001-character document, longer than the configured maximum. -/
def longWebsiteDoc : String := ⟨List.replicate 4001 'a'⟩

/-- C7 witness: a loader returning a short document and a 4001-character
document yields a successful extraction whose segments are all cut to at
most 4000 characters. -/
theorem load_and_extract_truncates_witness :
    load_and_extract (fun _ => .ok ["hello", longWebsiteDoc]) "https://example.com" =
      .ok (["hello", longWebsiteDoc].map (fun s => pySlice s MAX_WEBSITE_CONTENT_LENGTH)) ∧
    ∀ s2 ∈ ["hello", longWebsiteDoc].map (fun s => pySlice s MAX_WEBSITE_CONTENT_LENGTH),
      s2.length ≤ MAX_WEBSITE_CONTENT_LENGTH :=
  (load_and_extract_truncates (fun _ => .ok ["hello", longWebsiteDoc])
    "https://example.com").2.2 "hello" [longWebsiteDoc] rfl (by decide)

/-- C8: every error escaping the two acquisition operations or the
summarization operation is a domain-taxonomy error with a nonempty
human-readable message and a machine-readable kind, and whenever the
failure originates in a third-party stage the operation returns a
wrapped domain error whose `original_error` detail preserves the
third-party exception message (for the LLM-construction failure, the
message of the intermediate `GroqAPIException`), rather than the raw
exception escaping. -/
theorem service_errors_wrapped
    (ytdlpDownload : String → Except String Bool)
    (whisperTranscribe : String → Except String String)
    (webBaseLoad : String → Except String (List String))
    (chatGroqInit : Except String Unit)
    (chainRun : List String → Except String String)
    (url : String) (docs : List String) :
    (∀ e, download_and_transcribe ytdlpDownload whisperTranscribe url = .error e →
      (e.error_code = "YOUTUBE_ERROR" ∨ e.error_code = "TRANSCRIPTION_ERROR") ∧
        e.message ≠ "") ∧
    (∀ m, ytdlpDownload url = .error m →
      ∃ e, download_and_transcribe ytdlpDownload whisperTranscribe url = .error e ∧
        ("original_error", m) ∈ e.details ∧ e.error_code = "YOUTUBE_ERROR") ∧
    (∀ m, ytdlpDownload url = .ok true → whisperTranscribe url = .error m →
      ∃ e, download_and_transcribe ytdlpDownload whisperTranscribe url = .error e ∧
        ("original_error", m) ∈ e.details ∧ e.error_code = "YOUTUBE_ERROR") ∧
    (∀ e, load_and_extract webBaseLoad url = .error e →
      e.error_code = "WEBSITE_ERROR" ∧ e.message ≠ "") ∧
    (∀ m, webBaseLoad url = .error m →
      ∃ e, load_and_extract webBaseLoad url = .error e ∧
        ("original_error", m) ∈ e.details ∧ e.error_code = "WEBSITE_ERROR") ∧
    (∀ e, summarize chatGroqInit chainRun docs = .error e →
      e.error_code = "SUMMARIZATION_ERROR" ∧ e.message ≠ "") ∧
    (∀ m, docs ≠ [] → chatGroqInit = .error m →
      ∃ e, summarize chatGroqInit chainRun docs = .error e ∧
        ("original_error", "Failed to initialize summarization service") ∈ e.details ∧
        e.error_code = "SUMMARIZATION_ERROR") ∧
    (∀ m, docs ≠ [] → chatGroqInit = .ok () → chainRun docs = .error m →
      ∃ e, summarize chatGroqInit chainRun docs = .error e ∧
        ("original_error", m) ∈ e.details ∧ e.error_code = "SUMMARIZATION_ERROR") := by
  refine ⟨?_, ?_, ?_, ?_, ?_, ?_, ?_, ?_⟩
  · intro e he
    cases hd : ytdlpDownload url with
    | error m =>
      simp only [download_and_transcribe, hd, Except.error.injEq] at he
      subst he
      refine ⟨Or.inl rfl, ?_⟩
      exact append_ne_empty_left _ _ (by decide)
    | ok audioExists =>
      cases audioExists with
      | false =>
        simp only [download_and_transcribe, hd, Bool.not_false, if_true,
          Except.error.injEq] at he
        subst he
        exact ⟨Or.inl rfl, by decide⟩
      | true =>
        cases ht : whisperTranscribe url with
        | error m =>
          simp only [download_and_transcribe, hd, ht, Bool.not_true, Bool.false_eq_true,
            if_false, Except.error.injEq] at he
          subst he
          refine ⟨Or.inl rfl, ?_⟩
          exact append_ne_empty_left _ _ (by decide)
        | ok text =>
          by_cases hstrip : pyStrip text = ""
          · simp only [download_and_transcribe, hd, ht, Bool.not_true, Bool.false_eq_true,
              if_false, hstrip, if_pos, Except.error.injEq] at he
            subst he
            exact ⟨Or.inr rfl, by decide⟩
          · simp only [download_and_transcribe, hd, ht, Bool.not_true, Bool.false_eq_true,
              if_false, hstrip, if_neg] at he
            simp at he
  · intro m hm
    refine ⟨YouTubeProcessingException ("Failed to process YouTube video: " ++ m)
      [("original_error", m)], ?_, List.mem_singleton_self _, rfl⟩
    unfold download_and_transcribe
    rw [hm]
  · intro m hd ht
    refine ⟨YouTubeProcessingException ("Failed to process YouTube video: " ++ m)
      [("original_error", m)], ?_, List.mem_singleton_self _, rfl⟩
    unfold download_and_transcribe
    rw [hd, ht]
    rfl
  · intro e he
    cases hl : webBaseLoad url with
    | error m =>
      simp only [load_and_extract, hl, Except.error.injEq] at he
      subst he
      refine ⟨rfl, ?_⟩
      exact append_ne_empty_left _ _ (by decide)
    | ok ds =>
      cases ds with
      | nil =>
        simp only [load_and_extract, hl, Except.error.injEq] at he
        subst he
        exact ⟨rfl, by decide⟩
      | cons d ds =>
        by_cases hstrip : pyStrip d = ""
        · simp only [load_and_extract, hl, hstrip, if_pos, Except.error.injEq] at he
          subst he
          exact ⟨rfl, by decide⟩
        · simp only [load_and_extract, hl, hstrip, if_neg] at he
          simp at he
  · intro m hm
    refine ⟨WebsiteProcessingException ("Failed to load website content: " ++ m)
      [("original_error", m)], ?_, List.mem_singleton_self _, rfl⟩
    unfold load_and_extract
    rw [hm]
  · intro e he
    cases docs with
    | nil =>
      simp only [summarize, if_pos, Except.error.injEq] at he
      subst he
      exact ⟨rfl, by decide⟩
    | cons d ds =>
      cases hi : chatGroqInit with
      | error m =>
        simp only [summarize, hi, List.cons_ne_nil, if_false, Except.error.injEq] at he
        subst he
        refine ⟨rfl, ?_⟩
        exact append_ne_empty_left _ _ (by decide)
      | ok u =>
        cases hr : chainRun (d :: ds) with
        | error m =>
          simp only [summarize, hi, hr, List.cons_ne_nil, if_false,
            Except.error.injEq] at he
          subst he
          refine ⟨rfl, ?_⟩
          exact append_ne_empty_left _ _ (by decide)
        | ok text =>
          by_cases hstrip : pyStrip text = ""
          · simp only [summarize, hi, hr, List.cons_ne_nil, if_false, hstrip, if_pos,
              Except.error.injEq] at he
            subst he
            exact ⟨rfl, by decide⟩
          · simp only [summarize, hi, hr, List.cons_ne_nil, if_false, hstrip,
              if_neg] at he
            simp at he
  · intro m hdocs hi
    refine ⟨SummarizationException
      ("Failed to summarize content: " ++ "Failed to initialize summarization service")
      [("original_error", "Failed to initialize summarization service")], ?_,
      List.mem_singleton_self _, rfl⟩
    unfold summarize
    rw [if_neg hdocs, hi]
    rfl
  · intro m hdocs hi hr
    refine ⟨SummarizationException ("Failed to summarize content: " ++ m)
      [("original_error", m)], ?_, List.mem_singleton_self _, rfl⟩
    unfold summarize
    rw [if_neg hdocs, hi, hr]

/-- C8 witness: with a failing downloader, a failing loader, and a
failing LLM chain, each of the three services returns a wrapped domain
error that preserves the third-party message under `original_error`. -/
theorem service_errors_wrapped_witness :
    (∃ e, download_and_transcribe (fun _ => .error "dl boom") (fun _ => .ok "text")
        "https://youtu.be/x" = .error e ∧
      ("original_error", "dl boom") ∈ e.details ∧ e.error_code = "YOUTUBE_ERROR") ∧
    (∃ e, load_and_extract (fun _ => .error "net boom") "https://example.com" = .error e ∧
      ("original_error", "net boom") ∈ e.details ∧ e.error_code = "WEBSITE_ERROR") ∧
    (∃ e, summarize (.ok ()) (fun _ => .error "llm boom") ["doc"] = .error e ∧
      ("original_error", "llm boom") ∈ e.details ∧ e.error_code = "SUMMARIZATION_ERROR") := by
  have h := service_errors_wrapped (fun _ => .error "dl boom") (fun _ => .ok "text")
    (fun _ => .error "net boom") (.ok ()) (fun _ => .error "llm boom")
    "https://youtu.be/x" ["doc"]
  exact ⟨h.2.1 "dl boom" rfl, h.2.2.2.2.1 "net boom" rfl,
    h.2.2.2.2.2.2.2 "llm boom" (by decide) rfl rfl⟩

/-- The `balanced` prompt template of `get_summary_prompt`
(src/services.py lines 217-220), with the f-string `{length}` hole
interpolated; `{{text}}` renders as the literal `{text}`. -/
def prompt_balanced (length : ℕ) : String :=
  "Provide a balanced summary of the following content in approximately " ++
    toString length ++
    " words. \nCover the main points clearly and concisely:\nContent:{text}\nSummary:"

/-- The `bullet_points` template (src/services.py lines 221-224); it
interpolates no `{length}`. -/
def prompt_bullet_points : String :=
  "Summarize the following content as concise bullet points (5-8 points). \nFocus on key takeaways:\nContent:{text}\nSummary:"

/-- The `executive` template (src/services.py lines 225-228). -/
def prompt_executive (length : ℕ) : String :=
  "Create an executive summary of the following content in " ++ toString length ++
    " words. \nInclude key findings and recommendations:\nContent:{text}\nSummary:"

/-- The `technical` template (src/services.py lines 229-232). -/
def prompt_technical (length : ℕ) : String :=
  "Provide a technical summary of the following content in " ++ toString length ++
    " words. \nFocus on technical details and specifications:\nContent:{text}\nSummary:"

/-- The `simplified` template (src/services.py lines 233-236). -/
def prompt_simplified (length : ℕ) : String :=
  "Explain the following content in simple terms (" ++ toString length ++
    " words). \nMake it understandable to non-experts:\nContent:{text}\nSummary:"

/-- `Config.SUMMARY_STYLES` (src/config.py line 32). -/
def SUMMARY_STYLES : List String :=
  ["balanced", "bullet_points", "executive", "technical", "simplified"]

/-- `SummarizationService.get_summary_prompt` (src/services.py lines
203-240): the dictionary lookup `prompts.get(style, prompts["balanced"])`
as a case split over the five keys with the balanced fallback. -/
def get_summary_prompt (style : String) (length : ℕ) : String :=
  if style = "balanced" then prompt_balanced length
  else if style = "bullet_points" then prompt_bullet_points
  else if style = "executive" then prompt_executive length
  else if style = "technical" then prompt_technical length
  else if style = "simplified" then prompt_simplified length
  else prompt_balanced length

/-- C9: each of the five known styles selects its fixed template; an
unknown style falls back to the balanced template instead of failing;
the bullet_points template is independent of the target length and asks
for a fixed (5-8 points) count; and each of the other four templates
mentions the target length (the prompt decomposes around the decimal
rendering of `length`). -/
theorem get_summary_prompt_selection (style : String) (length l1 l2 : ℕ) :
    (get_summary_prompt "balanced" length = prompt_balanced length ∧
     get_summary_prompt "bullet_points" length = prompt_bullet_points ∧
     get_summary_prompt "executive" length = prompt_executive length ∧
     get_summary_prompt "technical" length = prompt_technical length ∧
     get_summary_prompt "simplified" length = prompt_simplified length) ∧
    (style ∉ SUMMARY_STYLES → get_summary_prompt style length = prompt_balanced length) ∧
    (get_summary_prompt "bullet_points" l1 = get_summary_prompt "bullet_points" l2) ∧
    (∃ a b : String, get_summary_prompt "bullet_points" length =
      a ++ "(5-8 points)" ++ b) ∧
    (∀ s ∈ ["balanced", "executive", "technical", "simplified"],
      ∃ a b : String, get_summary_prompt s length = a ++ toString length ++ b) := by
  refine ⟨⟨rfl, rfl, rfl, rfl, rfl⟩, ?_, rfl, ?_, ?_⟩
  · intro h
    simp only [SUMMARY_STYLES, List.mem_cons, List.not_mem_nil, or_false, not_or] at h
    obtain ⟨h1, h2, h3, h4, h5⟩ := h
    unfold get_summary_prompt
    rw [if_neg h1, if_neg h2, if_neg h3, if_neg h4, if_neg h5]
  · exact ⟨"Summarize the following content as concise bullet points ",
      ". \nFocus on key takeaways:\nContent:{text}\nSummary:", rfl⟩
  · intro s hs
    simp only [List.mem_cons, List.not_mem_nil, or_false] at hs
    rcases hs with rfl | rfl | rfl | rfl
    · exact ⟨"Provide a balanced summary of the following content in approximately ",
        " words. \nCover the main points clearly and concisely:\nContent:{text}\nSummary:",
        rfl⟩
    · exact ⟨"Create an executive summary of the following content in ",
        " words. \nInclude key findings and recommendations:\nContent:{text}\nSummary:",
        rfl⟩
    · exact ⟨"Provide a technical summary of the following content in ",
        " words. \nFocus on technical details and specifications:\nContent:{text}\nSummary:",
        rfl⟩
    · exact ⟨"Explain the following content in simple terms (",
        " words). \nMake it understandable to non-experts:\nContent:{text}\nSummary:",
        rfl⟩

/-- C9 witness: the unknown style `poetic` falls back to the balanced
template at length 300. -/
theorem get_summary_prompt_selection_witness :
    get_summary_prompt "poetic" 300 = prompt_balanced 300 :=
  (get_summary_prompt_selection "poetic" 300 0 0).2.1 (by decide)

theorem SimpleCache.get_of_none {α : Type} (md5hex : String → String)
    (c : SimpleCache α) (key : String) (now : ℚ)
    (h : dictLookup c.cache (md5hex key) = none) :
    SimpleCache.get md5hex c key now = (none, c) := by
  unfold SimpleCache.get
  rw [h]

theorem SimpleCache.get_ttl {α : Type} (md5hex : String → String)
    (c : SimpleCache α) (key : String) (now : ℚ) :
    (SimpleCache.get md5hex c key now).2.ttl_seconds = c.ttl_seconds := by
  cases hl : dictLookup c.cache (md5hex key) with
  | none => rw [SimpleCache.get_of_none md5hex c key now hl]
  | some e =>
    rw [SimpleCache.get_of_lookup md5hex c key now e hl]
    by_cases hexp : (c.ttl_seconds : ℚ) < now - e.timestamp
    · rw [if_pos hexp]
    · rw [if_neg hexp]

/-- The cache key `f"{url}_{style}_{length}"` of src/app.py line 365. -/
def cacheKeyOf (url style : String) (length : ℕ) : String :=
  url ++ "_" ++ style ++ "_" ++ toString length

/-- The observable outcome of one summarize-button run of `main`
(src/app.py lines 364-411): the displayed result or error, the cache
state afterwards, and how many times content acquisition and
summarization ran. -/
structure PipelineOutcome where
  result : Except AppErr String
  cache : SimpleCache String
  acquisitions : ℕ
  summarizations : ℕ

/-- The fresh (cache-miss) path of `main` (src/app.py lines 378-411):
acquire content for the URL, summarize it, and on success write the
summary back into the cache before the result is displayed.  Errors
from either stage surface as the run's error (the `except` arms of lines
467-481) and are not cached. -/
def runPipelineFresh (md5hex : String → String)
    (acquire : String → Except AppErr (List String))
    (summarizeDocs : List String → Except AppErr String)
    (cache : SimpleCache String) (cache_key url : String) (now : ℚ) : PipelineOutcome :=
  match acquire url with
  | .error e => ⟨.error e, cache, 1, 0⟩
  | .ok docs =>
      match summarizeDocs docs with
      | .error e => ⟨.error e, cache, 1, 1⟩
      | .ok summary =>
          ⟨.ok summary, SimpleCache.set md5hex cache cache_key summary now, 1, 1⟩

/-- The cache/acquire/summarize slice of `main` (src/app.py lines
364-411): look up the cache under the key derived from (url, style,
length); a truthy cached value (`if cached_result:`) short-circuits to
the cached summary with no acquisition and no summarization; otherwise
the fresh path runs.  The acquisition strategy (YouTube or website,
dispatched on the URL type at lines 392-400) and the summarization
service are abstracted as `acquire` and `summarizeDocs`. -/
def runPipeline (md5hex : String → String)
    (acquire : String → Except AppErr (List String))
    (summarizeDocs : List String → Except AppErr String)
    (cache : SimpleCache String) (url style : String) (length : ℕ) (now : ℚ) :
    PipelineOutcome :=
  let cache_key := cacheKeyOf url style length
  let g := SimpleCache.get md5hex cache cache_key now
  match g.1 with
  | some cached =>
      if cached ≠ "" then ⟨.ok cached, g.2, 0, 0⟩
      else runPipelineFresh md5hex acquire summarizeDocs g.2 cache_key url now
  | none => runPipelineFresh md5hex acquire summarizeDocs g.2 cache_key url now

theorem runPipeline_hit (md5hex : String → String)
    (acquire : String → Except AppErr (List String))
    (summarizeDocs : List String → Except AppErr String)
    (cache : SimpleCache String) (url style : String) (length : ℕ) (now : ℚ) (s : String)
    (hget : (SimpleCache.get md5hex cache (cacheKeyOf url style length) now).1 = some s) :
    runPipeline md5hex acquire summarizeDocs cache url style length now =
      if s ≠ "" then
        ⟨.ok s, (SimpleCache.get md5hex cache (cacheKeyOf url style length) now).2, 0, 0⟩
      else
        runPipelineFresh md5hex acquire summarizeDocs
          (SimpleCache.get md5hex cache (cacheKeyOf url style length) now).2
          (cacheKeyOf url style length) url now := by
  simp only [runPipeline, hget]

theorem runPipeline_miss (md5hex : String → String)
    (acquire : String → Except AppErr (List String))
    (summarizeDocs : List String → Except AppErr String)
    (cache : SimpleCache String) (url style : String) (length : ℕ) (now : ℚ)
    (hget : (SimpleCache.get md5hex cache (cacheKeyOf url style length) now).1 = none) :
    runPipeline md5hex acquire summarizeDocs cache url style length now =
      runPipelineFresh md5hex acquire summarizeDocs
        (SimpleCache.get md5hex cache (cacheKeyOf url style length) now).2
        (cacheKeyOf url style length) url now := by
  simp only [runPipeline, hget]

theorem runPipelineFresh_ok (md5hex : String → String)
    (acquire : String → Except AppErr (List String))
    (summarizeDocs : List String → Except AppErr String)
    (cache : SimpleCache String) (cache_key url : String) (now : ℚ)
    (docs : List String) (summary : String)
    (hacq : acquire url = .ok docs) (hsum : summarizeDocs docs = .ok summary) :
    runPipelineFresh md5hex acquire summarizeDocs cache cache_key url now =
      ⟨.ok summary, SimpleCache.set md5hex cache cache_key summary now, 1, 1⟩ := by
  simp only [runPipelineFresh, hacq, hsum]

/-- C5: in the orchestrator, a truthy cache hit on the key derived from
(url, style, length) short-circuits to completion with the cached
summary, with zero acquisitions and zero summarizations; on a cache miss
with successful acquisition and summarization the fresh summary is
written back into the cache in the returned state; hence when the same
(url, style, length) is requested again within the TTL, the first run
performs the single acquisition and summarization and the second run
performs none, returning the cached summary. -/
theorem pipeline_cache_once (md5hex : String → String)
    (acquire : String → Except AppErr (List String))
    (summarizeDocs : List String → Except AppErr String)
    (cache : SimpleCache String) (url style : String) (length : ℕ) (t1 t2 : ℚ) :
    (∀ s, (SimpleCache.get md5hex cache (cacheKeyOf url style length) t1).1 = some s →
      s ≠ "" →
      runPipeline md5hex acquire summarizeDocs cache url style length t1 =
        ⟨.ok s, (SimpleCache.get md5hex cache (cacheKeyOf url style length) t1).2,
          0, 0⟩) ∧
    (∀ docs summary,
      (SimpleCache.get md5hex cache (cacheKeyOf url style length) t1).1 = none →
      acquire url = .ok docs → summarizeDocs docs = .ok summary →
      runPipeline md5hex acquire summarizeDocs cache url style length t1 =
        ⟨.ok summary,
          SimpleCache.set md5hex
            (SimpleCache.get md5hex cache (cacheKeyOf url style length) t1).2
            (cacheKeyOf url style length) summary t1, 1, 1⟩) ∧
    (∀ docs summary,
      (SimpleCache.get md5hex cache (cacheKeyOf url style length) t1).1 = none →
      acquire url = .ok docs → summarizeDocs docs = .ok summary → summary ≠ "" →
      t2 - t1 ≤ (cache.ttl_seconds : ℚ) →
      (runPipeline md5hex acquire summarizeDocs cache url style length t1).acquisitions
        = 1 ∧
      (runPipeline md5hex acquire summarizeDocs cache url style length t1).summarizations
        = 1 ∧
      runPipeline md5hex acquire summarizeDocs
          (runPipeline md5hex acquire summarizeDocs cache url style length t1).cache
          url style length t2 =
        ⟨.ok summary,
          (runPipeline md5hex acquire summarizeDocs cache url style length t1).cache,
          0, 0⟩) := by
  have hmiss : ∀ docs summary,
      (SimpleCache.get md5hex cache (cacheKeyOf url style length) t1).1 = none →
      acquire url = .ok docs → summarizeDocs docs = .ok summary →
      runPipeline md5hex acquire summarizeDocs cache url style length t1 =
        ⟨.ok summary,
          SimpleCache.set md5hex
            (SimpleCache.get md5hex cache (cacheKeyOf url style length) t1).2
            (cacheKeyOf url style length) summary t1, 1, 1⟩ := by
    intro docs summary hget hacq hsum
    rw [runPipeline_miss md5hex acquire summarizeDocs cache url style length t1 hget]
    exact runPipelineFresh_ok md5hex acquire summarizeDocs _ _ url t1 docs summary hacq hsum
  refine ⟨?_, hmiss, ?_⟩
  · intro s hget hne
    rw [runPipeline_hit md5hex acquire summarizeDocs cache url style length t1 s hget,
      if_pos hne]
  · intro docs summary hget hacq hsum hne httl
    have h1 := hmiss docs summary hget hacq hsum
    rw [h1]
    refine ⟨rfl, rfl, ?_⟩
    have hlook : dictLookup
        (SimpleCache.set md5hex
          (SimpleCache.get md5hex cache (cacheKeyOf url style length) t1).2
          (cacheKeyOf url style length) summary t1).cache
        (md5hex (cacheKeyOf url style length)) = some ⟨summary, t1⟩ :=
      dictLookup_dictSet_self _ _ _
    have httl2 : ¬ (((SimpleCache.set md5hex
          (SimpleCache.get md5hex cache (cacheKeyOf url style length) t1).2
          (cacheKeyOf url style length) summary t1).ttl_seconds : ℚ) <
        t2 - (show CacheEntry String from ⟨summary, t1⟩).timestamp) := by
      have hsame : (SimpleCache.set md5hex
          (SimpleCache.get md5hex cache (cacheKeyOf url style length) t1).2
          (cacheKeyOf url style length) summary t1).ttl_seconds = cache.ttl_seconds := by
        show (SimpleCache.get md5hex cache (cacheKeyOf url style length) t1).2.ttl_seconds
          = cache.ttl_seconds
        exact SimpleCache.get_ttl md5hex cache (cacheKeyOf url style length) t1
      rw [hsame]
      exact not_lt.mpr httl
    have hget2 := SimpleCache.get_hit md5hex _ (cacheKeyOf url style length) t2
      ⟨summary, t1⟩ hlook httl2
    have hget2fst : (SimpleCache.get md5hex
        (SimpleCache.set md5hex
          (SimpleCache.get md5hex cache (cacheKeyOf url style length) t1).2
          (cacheKeyOf url style length) summary t1)
        (cacheKeyOf url style length) t2).1 = some summary := by
      rw [hget2]
    rw [runPipeline_hit md5hex acquire summarizeDocs _ url style length t2 summary
      hget2fst, if_pos hne]
    have hget2snd : (SimpleCache.get md5hex
        (SimpleCache.set md5hex
          (SimpleCache.get md5hex cache (cacheKeyOf url style length) t1).2
          (cacheKeyOf url style length) summary t1)
        (cacheKeyOf url style length) t2).2 =
        SimpleCache.set md5hex
          (SimpleCache.get md5hex cache (cacheKeyOf url style length) t1).2
          (cacheKeyOf url style length) summary t1 := by
      rw [hget2]
    rw [hget2snd]

/-- C5 witness: with an empty cache (TTL 10), a stub acquirer and
summarizer, and the same request at times 0 and 1, the first run
acquires and summarizes exactly once and the second run returns the
cached summary with zero acquisitions and zero summarizations. -/
theorem pipeline_cache_once_witness :
    (runPipeline (fun s => s) (fun _ => .ok ["doc"]) (fun _ => .ok "sum")
      ⟨10, []⟩ "https://example.com" "balanced" 300 0).acquisitions = 1 ∧
    (runPipeline (fun s => s) (fun _ => .ok ["doc"]) (fun _ => .ok "sum")
      ⟨10, []⟩ "https://example.com" "balanced" 300 0).summarizations = 1 ∧
    runPipeline (fun s => s) (fun _ => .ok ["doc"]) (fun _ => .ok "sum")
        (runPipeline (fun s => s) (fun _ => .ok ["doc"]) (fun _ => .ok "sum")
          ⟨10, []⟩ "https://example.com" "balanced" 300 0).cache
        "https://example.com" "balanced" 300 1 =
      ⟨.ok "sum",
        (runPipeline (fun s => s) (fun _ => .ok ["doc"]) (fun _ => .ok "sum")
          ⟨10, []⟩ "https://example.com" "balanced" 300 0).cache, 0, 0⟩ :=
  (pipeline_cache_once (fun s => s) (fun _ => .ok ["doc"]) (fun _ => .ok "sum")
    ⟨10, []⟩ "https://example.com" "balanced" 300 0 1).2.2 ["doc"] "sum"
    rfl rfl rfl (by decide) (by norm_num)

end YtWebSummarizer
